import Mathlib

/-
  Shallow embedding of lib/roles/dbus/dbus.c: the bridge between the
  libdbus watch/timeout callback API and the lws poll-based event loop.

  Modelling conventions:
  * A DBusWatch / DBusTimeout token is its observable query surface
    (fd, flags, interval, enabled) plus a numeric identity.
  * A shadow wsi is visible to the bridge only through the per-thread
    descriptor table; it is modelled as an FdEntry (descriptor number,
    owner bridge context, installed poll interest mask).  The owner field
    models the parent-data back-reference stored on the wsi.
  * malloc failure and descriptor-table insertion failure are environment
    choices, passed as Bool oracle arguments.
  * assert() is modelled as a contract-violation outcome that aborts the
    call (debug-build semantics): the statement after a failed assert is
    treated as unreachable.
  * The libdbus side (dbus_watch_handle, dbus_connection_dispatch,
    dbus_timeout_handle) holds no modelled state; the dispatch status
    observed by check_destroy_shadow_wsi after the drain loop is an
    environment Bool argument.
  * The invocations of the closing-notification callback are counted in a
    ghost field closingFired.
-/

namespace LwsDbus

/-- D-Bus watch flag: readable interest (public libdbus constant). -/
def DBUS_WATCH_READABLE : Nat := 1

/-- D-Bus watch flag: writable interest (public libdbus constant). -/
def DBUS_WATCH_WRITABLE : Nat := 2

/-- lws poll flag for readability, mirroring POLLIN. -/
def LWS_POLLIN : Nat := 1

/-- lws poll flag for writability, mirroring POLLOUT. -/
def LWS_POLLOUT : Nat := 4

/-- lws poll flag for hangup, mirroring POLLHUP combined with POLLERR. -/
def LWS_POLLHUP : Nat := 24

/-- A DBusWatch token as observed by the bridge: identity, the flags
reported by dbus_watch_get_flags, and the fd from
dbus_watch_get_unix_fd. -/
structure DBusWatch where
  wid : Nat
  flags : Nat
  fd : Nat
  deriving Repr, DecidableEq

/-- A DBusTimeout token as observed by the bridge: identity, the interval
in ms from dbus_timeout_get_interval, and the enabled state. -/
structure DBusTimeout where
  tid : Nat
  interval : Int
  enabled : Bool
  deriving Repr, DecidableEq

/-- A shadow wsi as it appears in the per-thread descriptor table:
descriptor number, owning bridge context (the parent-data back-reference)
and the installed poll interest mask. -/
structure FdEntry where
  fd : Nat
  owner : Nat
  events : Nat
  deriving Repr, DecidableEq

/-- struct lws_role_dbus_timer: the dbus timeout token and the fire
deadline (a time_t). -/
structure TimerEntry where
  data : Nat
  fire : Int
  deriving Repr, DecidableEq

/-- struct lws_dbus_ctx: context identity (the pointer value used for
ownership comparison), whether conn and dbs are non-null, the two watch
slots w[2], the sticky hup flag, the pending timeout count and whether a
closing-notification callback is installed. -/
structure DbusCtx where
  cid : Nat
  hasConn : Bool
  hasDbs : Bool
  w0 : Option DBusWatch
  w1 : Option DBusWatch
  hup : Bool
  timeouts : Int
  hasCbClosing : Bool
  deriving Repr, DecidableEq

/-- The state touched by the bridge: one lws_dbus_ctx, the per-thread
descriptor table and dbus timer list, the context wsi allocation count,
the fd limit per thread, and the ghost count of closing-callback
invocations. -/
structure St where
  ctx : DbusCtx
  fds : List FdEntry
  timers : List TimerEntry
  countWsiAllocated : Int
  fdLimit : Nat
  closingFired : Nat
  deriving Repr, DecidableEq

/-- Modelled from the spec: the multiplexer capability
resolve_handle_by_descriptor (spec section 6), realised by the host
function wsi_from_fd as a lookup in the descriptor table. -/
def wsi_from_fd (fds : List FdEntry) (fd : Nat) : Option FdEntry :=
  fds.find? (fun e => e.fd == fd)

/-- Failure modes of __lws_shadow_wsi: fd out of range (assert), a handle
owned by another context (assert), allocation failure, descriptor-table
insertion failure. -/
inductive ShadowErr
  | badFd
  | crossCtx
  | oom
  | insertFail
  deriving Repr, DecidableEq

/-- Result of __lws_shadow_wsi: an error indication (a NULL return or a
failed assert), the returned wsi if any, and the post-call state. -/
structure ShadowOut where
  err : Option ShadowErr
  wsi : Option FdEntry
  st : St
  deriving Repr, DecidableEq

/-- __lws_shadow_wsi (dbus.c lines 46-97): retrieve the existing shadow
wsi for fd or create a new one.  The fd range check asserts and fails;
an existing wsi owned by another context fails the ownership assert; on
the creation path the first watch slot is set to w, then the wsi is bound
and inserted into the descriptor table (insertion is modelled from the
spec capability register_descriptor, its failure being an environment
choice; the fresh entry starts with an empty interest mask).  On
insertion failure the wsi is unbound and freed, the slot assignment
remaining. -/
def __lws_shadow_wsi (st : St) (w : DBusWatch) (fd : Nat) (createOk : Bool)
    (allocFails : Bool) (insertFails : Bool) : ShadowOut :=
  if st.fdLimit ≤ fd then
    ⟨some .badFd, none, st⟩
  else
    match wsi_from_fd st.fds fd with
    | some e =>
      if e.owner ≠ st.ctx.cid then ⟨some .crossCtx, none, st⟩
      else ⟨none, some e, st⟩
    | none =>
      if !createOk then ⟨none, none, st⟩
      else if allocFails then ⟨some .oom, none, st⟩
      else
        let st1 : St := { st with ctx := { st.ctx with w0 := some w } }
        if insertFails then ⟨some .insertFail, none, st1⟩
        else
          let e : FdEntry := ⟨fd, st.ctx.cid, 0⟩
          let st2 : St := { st1 with
                            fds := e :: st1.fds
                            countWsiAllocated := st1.countWsiAllocated + 1 }
          ⟨none, some e, st2⟩

/-- a AND (NOT b), written on Nat as a minus the common bits; agrees with
the C expression a and-not b used by the poll mask update. -/
def andNot (a b : Nat) : Nat := a - (a &&& b)

/-- Modelled from the spec: the multiplexer capability set_interest
(spec section 6), realised by the host function __lws_change_pollfd with
the semantics events becomes (events AND NOT andMask) OR orMask, the
reading that makes both call sites in dbus.c coherent. -/
def __lws_change_pollfd (fds : List FdEntry) (fd : Nat) (andMask orMask : Nat) :
    List FdEntry :=
  fds.map (fun e => if e.fd == fd then { e with events := andNot e.events andMask ||| orMask }
                    else e)

/-- Flags query of a watch slot: an empty slot contributes no flags. -/
def slotFlags : Option DBusWatch → Nat
  | none => 0
  | some w => w.flags

/-- The OR of dbus watch flags over the occupied slots of ctx, as computed
by the flag-merge loops in lws_dbus_add_watch and lws_dbus_remove_watch. -/
def ctxFlagsOr (c : DbusCtx) : Nat := slotFlags c.w0 ||| slotFlags c.w1

/-- Translation of merged dbus flags into lws poll flags (add path,
dbus.c lines 174-177): readable maps to LWS_POLLIN, writable to
LWS_POLLOUT. -/
def lwsFlagsOf (flags : Nat) : Nat :=
  (if flags &&& DBUS_WATCH_READABLE ≠ 0 then LWS_POLLIN else 0) |||
  (if flags &&& DBUS_WATCH_WRITABLE ≠ 0 then LWS_POLLOUT else 0)

/-- Translation used on the remove path (dbus.c lines 241-244): the poll
bits to clear are those whose dbus flag is absent from the merged flags. -/
def clearFlagsOf (flags : Nat) : Nat :=
  (if flags &&& DBUS_WATCH_READABLE = 0 then LWS_POLLIN else 0) |||
  (if flags &&& DBUS_WATCH_WRITABLE = 0 then LWS_POLLOUT else 0)

/-- The slot-recording loops of lws_dbus_add_watch (lines 159-168): if w
is already in a slot do nothing, otherwise put it into the first free
slot; with both slots full w is not recorded. -/
def recordSlot (c : DbusCtx) (w : DBusWatch) : DbusCtx :=
  if c.w0 = some w ∨ c.w1 = some w then c
  else if c.w0 = none then { c with w0 := some w }
  else if c.w1 = none then { c with w1 := some w }
  else c

/-- The slot-clearing loop of lws_dbus_remove_watch (lines 231-235):
clear the first slot holding w. -/
def clearSlot (c : DbusCtx) (w : DBusWatch) : DbusCtx :=
  if c.w0 = some w then { c with w0 := none }
  else if c.w1 = some w then { c with w1 := none }
  else c

/-- lws_dbus_add_watch (dbus.c lines 140-187): get or create the shadow
wsi for the fd of w (a NULL return propagates as FALSE together with the
state left by __lws_shadow_wsi), record w into a slot, recompute the
merged poll mask over the occupied slots and OR it onto the installed
interest of the shadow wsi. -/
def lws_dbus_add_watch (st : St) (w : DBusWatch)
    (allocFails insertFails : Bool) : St × Bool :=
  let o := __lws_shadow_wsi st w w.fd true allocFails insertFails
  match o.wsi with
  | none => (o.st, false)
  | some e =>
    let st1 := { o.st with ctx := recordSlot o.st.ctx w }
    let lf := lwsFlagsOf (ctxFlagsOr st1.ctx)
    ({ st1 with fds := __lws_change_pollfd st1.fds e.fd 0 lf }, true)

/-- lws_dbus_remove_watch (dbus.c lines 216-253): look up the shadow wsi
without creating (a missing wsi bails silently), clear the slot holding
w, recompute the merged flags of the remaining slots and clear the poll
bits that are no longer wanted.  Note that no destruction check is made
here. -/
def lws_dbus_remove_watch (st : St) (w : DBusWatch) : St :=
  let o := __lws_shadow_wsi st w w.fd false false false
  match o.wsi with
  | none => o.st
  | some e =>
    let st1 := { o.st with ctx := clearSlot o.st.ctx w }
    let cf := clearFlagsOf (ctxFlagsOr st1.ctx)
    { st1 with fds := __lws_change_pollfd st1.fds e.fd cf 0 }

/-- __lws_shadow_wsi_destroy (dbus.c lines 103-121): remove the wsi from
the descriptor table (modelled from the spec capability
unregister_descriptor as a successful removal), decrement the allocation
count and free the wsi. -/
def __lws_shadow_wsi_destroy (st : St) (fd : Nat) : St :=
  { st with
    fds := st.fds.filter (fun e => e.fd != fd)
    countWsiAllocated := st.countWsiAllocated - 1 }

/-- check_destroy_shadow_wsi (dbus.c lines 189-214): nothing happens
without a wsi or while any slot is occupied; otherwise the shadow wsi is
destroyed, and if conn is present, hup was observed, no timeouts are
pending and the post-drain dispatch status reports no remaining data, the
closing callback is invoked (counted in the ghost field) and 1 is
returned. -/
def check_destroy_shadow_wsi (st : St) (wsiFd : Option Nat)
    (dataRemains : Bool) : St × Bool :=
  match wsiFd with
  | none => (st, false)
  | some fd =>
    if st.ctx.w0 ≠ none ∨ st.ctx.w1 ≠ none then (st, false)
    else
      let st1 := __lws_shadow_wsi_destroy st fd
      if ¬st1.ctx.hasConn ∨ ¬st1.ctx.hup ∨ st1.ctx.timeouts ≠ 0 then (st1, false)
      else if dataRemains then (st1, false)
      else if st1.ctx.hasCbClosing then
        ({ st1 with closingFired := st1.closingFired + 1 }, true)
      else (st1, true)

/-- Translation of poll revents into dbus watch flags (dbus.c lines
437-440), forwarded to dbus_watch_handle for every occupied slot. -/
def watchFlagsOfRevents (revents : Nat) : Nat :=
  (if revents &&& LWS_POLLIN ≠ 0 then DBUS_WATCH_READABLE else 0) |||
  (if revents &&& LWS_POLLOUT ≠ 0 then DBUS_WATCH_WRITABLE else 0)

/-- rops_handle_POLLIN_dbus (dbus.c lines 428-470): record hangup
stickily when revents carries LWS_POLLHUP; forward the translated flags
to the occupied slots (an external call without modelled state); then,
only when the context wraps a connection, drain the dispatch queue (the
post-drain status is the environment argument) and run the destruction
check; a server context gets no action beyond a debug log. -/
def rops_handle_POLLIN_dbus (st : St) (wsiFd : Nat) (revents : Nat)
    (dataRemainsAfterDrain : Bool) : St :=
  let st1 := if revents &&& LWS_POLLHUP ≠ 0 then
               { st with ctx := { st.ctx with hup := true } }
             else st
  if st1.ctx.hasConn then
    (check_destroy_shadow_wsi st1 (some wsiFd) dataRemainsAfterDrain).1
  else st1

/-- lws_dbus_add_timeout (dbus.c lines 265-296): a disabled timeout is
ignored with success; the interval is clamped up to 1000 ms; the entry is
allocated (failure is an environment choice reported as FALSE), its fire
deadline is the add time plus the truth value of clamped ms below 1000,
the entry is linked at the list head and the pending count incremented. -/
def lws_dbus_add_timeout (st : St) (t : DBusTimeout) (ti : Int)
    (allocFails : Bool) : St × Bool :=
  if !t.enabled then (st, true)
  else
    let ms : Int := if t.interval < 1000 then 1000 else t.interval
    if allocFails then (st, false)
    else
      let dbt : TimerEntry := ⟨t.tid, ti + (if ms < 1000 then 1 else 0)⟩
      ({ st with
         timers := dbt :: st.timers
         ctx := { st.ctx with timeouts := st.ctx.timeouts + 1 } }, true)

/-- The removal scan of lws_dbus_remove_timeout: unlink the first entry
whose token matches, reporting whether one was found. -/
def removeFromTimerList : List TimerEntry → Nat → List TimerEntry × Bool
  | [], _ => ([], false)
  | r :: rest, tid =>
    if r.data = tid then (rest, true)
    else
      let p := removeFromTimerList rest tid
      (r :: p.1, p.2)

/-- lws_dbus_remove_timeout (dbus.c lines 298-317): linear scan for the
matching entry; unlink and free it and decrement the pending count; a
miss changes nothing. -/
def lws_dbus_remove_timeout (st : St) (t : DBusTimeout) : St :=
  let p := removeFromTimerList st.timers t.tid
  if p.2 then
    { st with
      timers := p.1
      ctx := { st.ctx with timeouts := st.ctx.timeouts - 1 } }
  else st

/-- The sweep of rops_periodic_checks_dbus: walk the list front to back,
firing (returning the token of) every entry with now strictly greater
than its fire deadline and unlinking it; other entries are kept. -/
def periodicSweep (now : Int) : List TimerEntry → List TimerEntry × List Nat
  | [] => ([], [])
  | r :: rest =>
    let p := periodicSweep now rest
    if now > r.fire then (p.1, r.data :: p.2) else (r :: p.1, p.2)

/-- rops_periodic_checks_dbus (dbus.c lines 472-497): apply the sweep to
the per-thread timer list; the fired tokens are handed to
dbus_timeout_handle (external).  The pending count on the context is not
touched here. -/
def rops_periodic_checks_dbus (st : St) (now : Int) : St × List Nat :=
  let p := periodicSweep now st.timers
  ({ st with timers := p.1 }, p.2)

/-! Concrete fixtures used by witnesses and counterexamples. -/

/-- A connection-wrapping bridge context with a closing callback, no
watches, no hangup and no pending timeouts. -/
def ctx0 : DbusCtx := ⟨7, true, false, none, none, false, 0, true⟩

/-- A fresh state for ctx0: empty descriptor table, empty timer list,
fd limit 64. -/
def st0 : St := ⟨ctx0, [], [], 0, 64, 0⟩

/-- A readable dbus watch on fd 5. -/
def wR : DBusWatch := ⟨1, DBUS_WATCH_READABLE, 5⟩

/-- A writable dbus watch on fd 5. -/
def wW : DBusWatch := ⟨2, DBUS_WATCH_WRITABLE, 5⟩

/-- An enabled dbus timeout requesting a 200 ms interval. -/
def t200 : DBusTimeout := ⟨0, 200, true⟩

/-- A disabled dbus timeout. -/
def tOff : DBusTimeout := ⟨3, 500, false⟩

/-- st0 with one timer entry whose fire deadline is 5. -/
def stTimer5 : St := { st0 with timers := [⟨0, 5⟩] }

/-- A server-wrapping bridge context (conn absent, dbs present). -/
def ctxSrv : DbusCtx := ⟨9, false, true, none, none, true, 0, true⟩

/-- A state for ctxSrv whose shadow handle for fd 5 exists with zero
occupied slots. -/
def stSrv : St := ⟨ctxSrv, [⟨5, 9, 0⟩], [], 1, 64, 0⟩

/-- A state in which fd 5 already has a shadow handle owned by a
different bridge context (owner 99, while the ctx is 7). -/
def stForeign : St := ⟨ctx0, [⟨5, 99, 1⟩], [], 1, 64, 0⟩

/-! Watch-operation sequences, for the mask-merge invariant. -/

/-- One watch-registry operation: an add (with its two environment
failure oracles) or a remove. -/
inductive WatchOp
  | addW (w : DBusWatch) (allocFails insertFails : Bool)
  | removeW (w : DBusWatch)
  deriving Repr, DecidableEq

/-- Apply one watch operation to the state. -/
def applyWatchOp (st : St) : WatchOp → St
  | .addW w af insf => (lws_dbus_add_watch st w af insf).1
  | .removeW w => lws_dbus_remove_watch st w

/-- Run a sequence of watch operations left to right. -/
def runWatchOps (st : St) : List WatchOp → St
  | [] => st
  | op :: rest => runWatchOps (applyWatchOp st op) rest

/-- The watch identity an operation refers to. -/
def opWatch : WatchOp → DBusWatch
  | .addW w _ _ => w
  | .removeW w => w

/-- The mask-merge invariant over one descriptor fd: every occupied slot
holds a watch on fd carrying only readable/writable bits, and either no
shadow handle is registered (in which case slot one is also free), or
exactly the one entry for fd is registered, owned by this context, with
its installed interest mask equal to the translated OR of the occupied
slots. -/
def WInv (fd : Nat) (st : St) : Prop :=
  (∀ w, st.ctx.w0 = some w → w.fd = fd ∧ w.flags < 4) ∧
  (∀ w, st.ctx.w1 = some w → w.fd = fd ∧ w.flags < 4) ∧
  (st.fds = [] ∧ st.ctx.w1 = none ∨
   st.fds = [⟨fd, st.ctx.cid, lwsFlagsOf (ctxFlagsOr st.ctx)⟩])

/-! Helper lemmas. -/

theorem wsi_from_fd_nil (fd : Nat) : wsi_from_fd [] fd = none := rfl

theorem wsi_from_fd_singleton (x : FdEntry) (fd : Nat) (h : x.fd = fd) :
    wsi_from_fd [x] fd = some x := by
  simp [wsi_from_fd, List.find?, h]

theorem wsi_from_fd_singleton_ne (x : FdEntry) (fd : Nat) (h : x.fd ≠ fd) :
    wsi_from_fd [x] fd = none := by
  have hb : (x.fd == fd) = false := beq_eq_false_iff_ne.mpr h
  simp [wsi_from_fd, List.find?, hb]

theorem wsi_from_fd_fd_eq {fds : List FdEntry} {fd : Nat} {e : FdEntry}
    (h : wsi_from_fd fds fd = some e) : e.fd = fd := by
  have := List.find?_some h
  simpa using this

/-- Behaviour of __lws_shadow_wsi when the fd resolves to a handle owned
by this context. -/
theorem shadow_found (st : St) (w : DBusWatch) (fd : Nat) (cOk af insf : Bool)
    (e : FdEntry) (hfd : fd < st.fdLimit)
    (hf : wsi_from_fd st.fds fd = some e) (ho : e.owner = st.ctx.cid) :
    __lws_shadow_wsi st w fd cOk af insf = ⟨none, some e, st⟩ := by
  unfold __lws_shadow_wsi
  rw [if_neg (by omega), hf]
  simp [ho]

/-- Behaviour of __lws_shadow_wsi on the remove path when no handle
exists: a plain not-found, no state change. -/
theorem shadow_missing_no_create (st : St) (w : DBusWatch) (fd : Nat)
    (af insf : Bool) (hfd : fd < st.fdLimit)
    (hf : wsi_from_fd st.fds fd = none) :
    __lws_shadow_wsi st w fd false af insf = ⟨none, none, st⟩ := by
  unfold __lws_shadow_wsi
  rw [if_neg (by omega), hf]
  simp

/-- Behaviour of __lws_shadow_wsi on a successful creation. -/
theorem shadow_create (st : St) (w : DBusWatch) (fd : Nat)
    (hfd : fd < st.fdLimit) (hf : wsi_from_fd st.fds fd = none) :
    __lws_shadow_wsi st w fd true false false =
      ⟨none, some ⟨fd, st.ctx.cid, 0⟩,
       { st with
         ctx := { st.ctx with w0 := some w }
         fds := FdEntry.mk fd st.ctx.cid 0 :: st.fds
         countWsiAllocated := st.countWsiAllocated + 1 }⟩ := by
  unfold __lws_shadow_wsi
  rw [if_neg (by omega), hf]
  rfl

/-- lws_dbus_remove_watch under a resolvable handle owned by this
context. -/
theorem remove_watch_found (st : St) (w : DBusWatch) (e : FdEntry)
    (hfd : w.fd < st.fdLimit)
    (hf : wsi_from_fd st.fds w.fd = some e) (ho : e.owner = st.ctx.cid) :
    lws_dbus_remove_watch st w =
      { st with
        ctx := clearSlot st.ctx w
        fds := __lws_change_pollfd st.fds e.fd
                 (clearFlagsOf (ctxFlagsOr (clearSlot st.ctx w))) 0 } := by
  unfold lws_dbus_remove_watch
  rw [shadow_found st w w.fd false false false e hfd hf ho]

/-- lws_dbus_add_watch under a resolvable handle owned by this context. -/
theorem add_watch_found (st : St) (w : DBusWatch) (af insf : Bool) (e : FdEntry)
    (hfd : w.fd < st.fdLimit)
    (hf : wsi_from_fd st.fds w.fd = some e) (ho : e.owner = st.ctx.cid) :
    lws_dbus_add_watch st w af insf =
      ({ st with
         ctx := recordSlot st.ctx w
         fds := __lws_change_pollfd st.fds e.fd 0
                  (lwsFlagsOf (ctxFlagsOr (recordSlot st.ctx w))) }, true) := by
  unfold lws_dbus_add_watch
  rw [shadow_found st w w.fd true af insf e hfd hf ho]

/-- lws_dbus_add_watch with the fd outside the valid range: the range
assert fails, NULL propagates, the state is unchanged. -/
theorem add_watch_badFd (st : St) (w : DBusWatch) (af insf : Bool)
    (h : st.fdLimit ≤ w.fd) :
    lws_dbus_add_watch st w af insf = (st, false) := by
  unfold lws_dbus_add_watch __lws_shadow_wsi
  rw [if_pos h]

/-- lws_dbus_add_watch under allocation failure on the creation path:
failure is reported, the state is unchanged. -/
theorem add_watch_allocFail (st : St) (w : DBusWatch) (insf : Bool)
    (hfd : w.fd < st.fdLimit) (hf : wsi_from_fd st.fds w.fd = none) :
    lws_dbus_add_watch st w true insf = (st, false) := by
  unfold lws_dbus_add_watch __lws_shadow_wsi
  rw [if_neg (by omega), hf]
  simp

/-- lws_dbus_add_watch under descriptor-table insertion failure: failure
is reported and the wsi unwound, but slot zero keeps the watch that the
creation path stored there. -/
theorem add_watch_insertFail (st : St) (w : DBusWatch)
    (hfd : w.fd < st.fdLimit) (hf : wsi_from_fd st.fds w.fd = none) :
    lws_dbus_add_watch st w false true =
      ({ st with ctx := { st.ctx with w0 := some w } }, false) := by
  unfold lws_dbus_add_watch __lws_shadow_wsi
  rw [if_neg (by omega), hf]
  simp

/-- lws_dbus_add_watch on a successful creation: slot zero is set during
creation (so the slot-recording loop finds the watch already present), a
fresh entry with empty mask is inserted and then receives the merged
mask. -/
theorem add_watch_create (st : St) (w : DBusWatch)
    (hfd : w.fd < st.fdLimit) (hf : wsi_from_fd st.fds w.fd = none) :
    lws_dbus_add_watch st w false false =
      ({ st with
         ctx := { st.ctx with w0 := some w }
         fds := __lws_change_pollfd (FdEntry.mk w.fd st.ctx.cid 0 :: st.fds) w.fd 0
                  (lwsFlagsOf (ctxFlagsOr { st.ctx with w0 := some w }))
         countWsiAllocated := st.countWsiAllocated + 1 }, true) := by
  unfold lws_dbus_add_watch
  rw [shadow_create st w w.fd hfd hf]
  show ({ st with
          ctx := recordSlot { st.ctx with w0 := some w } w
          fds := __lws_change_pollfd (FdEntry.mk w.fd st.ctx.cid 0 :: st.fds) w.fd 0
                   (lwsFlagsOf (ctxFlagsOr
                      (recordSlot { st.ctx with w0 := some w } w)))
          countWsiAllocated := st.countWsiAllocated + 1 }, true) = _
  have hrs : recordSlot { st.ctx with w0 := some w } w =
      { st.ctx with w0 := some w } := by
    unfold recordSlot
    rw [if_pos (Or.inl rfl)]
  rw [hrs]

/-- lws_dbus_remove_watch with the fd outside the valid range: the range
assert fails, NULL propagates, the removal bails with the state
unchanged. -/
theorem remove_watch_badFd (st : St) (w : DBusWatch)
    (h : st.fdLimit ≤ w.fd) :
    lws_dbus_remove_watch st w = st := by
  unfold lws_dbus_remove_watch __lws_shadow_wsi
  rw [if_pos h]

/-- lws_dbus_remove_watch when no shadow handle exists for the fd: a
silent no-op. -/
theorem remove_watch_missing (st : St) (w : DBusWatch)
    (hfd : w.fd < st.fdLimit) (hf : wsi_from_fd st.fds w.fd = none) :
    lws_dbus_remove_watch st w = st := by
  unfold lws_dbus_remove_watch
  rw [shadow_missing_no_create st w w.fd false false hfd hf]

/-- Updating the poll mask of a descriptor in the table commutes with
lookup: the fd fields are untouched, so the lookup result is just the
mapped entry. -/
theorem wsi_from_fd_change_pollfd (fds : List FdEntry) (fd a o fdq : Nat) :
    wsi_from_fd (__lws_change_pollfd fds fd a o) fdq =
      (wsi_from_fd fds fdq).map
        (fun e => if e.fd == fd then { e with events := andNot e.events a ||| o }
                  else e) := by
  induction fds with
  | nil => rfl
  | cons x l ih =>
    have hfd : (if x.fd == fd then { x with events := andNot x.events a ||| o }
                else x).fd = x.fd := by
      by_cases h : (x.fd == fd) = true <;> simp [h]
    simp only [__lws_change_pollfd, List.map_cons, wsi_from_fd, List.find?, hfd]
    by_cases hq : (x.fd == fdq) = true
    · simp [hq]
    · simp only [hq]
      exact ih

/-- After filtering a descriptor out of the table, lookup of that
descriptor misses. -/
theorem wsi_from_fd_filter_self (fds : List FdEntry) (fd : Nat) :
    wsi_from_fd (fds.filter (fun e => e.fd != fd)) fd = none := by
  induction fds with
  | nil => rfl
  | cons x l ih =>
    by_cases h : (x.fd == fd) = true
    · have : (x.fd != fd) = false := by simp [bne, h]
      simp only [List.filter_cons, this]
      exact ih
    · have hne : (x.fd != fd) = true := by simp [bne, h]
      simp only [wsi_from_fd, List.filter_cons, hne, if_true, List.find?, h] at ih ⊢
      exact ih

/-- When both watch slots are free, the destruction check removes the
descriptor from the table, in every branch of the notification
conditions. -/
theorem check_destroy_fds_empty_slots (st : St) (fd : Nat) (dr : Bool)
    (h0 : st.ctx.w0 = none) (h1 : st.ctx.w1 = none) :
    (check_destroy_shadow_wsi st (some fd) dr).1.fds =
      st.fds.filter (fun e => e.fd != fd) := by
  simp only [check_destroy_shadow_wsi]
  rw [if_neg (by simp [h0, h1])]
  split
  · rfl
  · split
    · rfl
    · split <;> rfl

/-- clearSlot touches only the watch slots. -/
theorem clearSlot_fields (c : DbusCtx) (w : DBusWatch) :
    (clearSlot c w).hasConn = c.hasConn ∧ (clearSlot c w).hup = c.hup ∧
    (clearSlot c w).cid = c.cid ∧ (clearSlot c w).timeouts = c.timeouts := by
  unfold clearSlot
  split_ifs <;> exact ⟨rfl, rfl, rfl, rfl⟩

/-- A readiness dispatch on a connection context with both slots free
destroys the shadow handle: the descriptor leaves the table. -/
theorem dispatch_destroys (st : St) (fd rev : Nat) (dr : Bool)
    (hconn : st.ctx.hasConn = true)
    (h0 : st.ctx.w0 = none) (h1 : st.ctx.w1 = none) :
    (rops_handle_POLLIN_dbus st fd rev dr).fds =
      st.fds.filter (fun e => e.fd != fd) := by
  unfold rops_handle_POLLIN_dbus
  by_cases hrev : rev &&& LWS_POLLHUP ≠ 0
  · rw [if_pos hrev]
    have hc : ({ st with ctx := { st.ctx with hup := true } } : St).ctx.hasConn
        = true := hconn
    rw [if_pos hc]
    exact check_destroy_fds_empty_slots _ fd dr h0 h1
  · rw [if_neg hrev, if_pos hconn]
    exact check_destroy_fds_empty_slots _ fd dr h0 h1

/-! Claim C1. -/

/-- C1 counterexample: starting from the fresh state, add the readable
watch wR on fd 5 and then remove it again (the last watch on that
descriptor): the shadow handle for fd 5 still exists after the removal,
so it was not destroyed during the removal. -/
theorem C1_counterexample_remove_leaves_handle :
    (wsi_from_fd
      (lws_dbus_remove_watch (lws_dbus_add_watch st0 wR false false).1 wR).fds
      5).isSome = true := by
  decide

/-- C1 amended: for a connection context, removing the last watch
identity referencing a descriptor leaves the shadow handle registered
(with its slot cleared); the handle is destroyed during the next
readiness dispatch delivered for that descriptor, whatever its readiness
flags, because the destruction check runs after readiness dispatch and
not after watch removal. -/
theorem C1_amended_destroyed_at_next_dispatch (st : St) (w : DBusWatch)
    (e : FdEntry) (revents : Nat) (dr : Bool)
    (hfd : w.fd < st.fdLimit)
    (hf : wsi_from_fd st.fds w.fd = some e)
    (ho : e.owner = st.ctx.cid)
    (hconn : st.ctx.hasConn = true)
    (h0 : (clearSlot st.ctx w).w0 = none)
    (h1 : (clearSlot st.ctx w).w1 = none) :
    (wsi_from_fd (lws_dbus_remove_watch st w).fds w.fd).isSome = true ∧
    wsi_from_fd
      (rops_handle_POLLIN_dbus (lws_dbus_remove_watch st w) w.fd revents dr).fds
      w.fd = none := by
  have hefd : e.fd = w.fd := wsi_from_fd_fd_eq hf
  have hrw := remove_watch_found st w e hfd hf ho
  constructor
  · rw [hrw]
    simp only [hefd, wsi_from_fd_change_pollfd, hf, Option.map_some]
    rfl
  · rw [hrw]
    rw [dispatch_destroys _ w.fd revents dr
      ((clearSlot_fields st.ctx w).1.trans hconn) h0 h1]
    exact wsi_from_fd_filter_self _ w.fd

/-- C1 witness: the amended theorem on the state reached by adding wR to
the fresh state, removing wR (the only watch), then dispatching a plain
POLLIN readiness event for fd 5: the handle survives the removal and is
gone after the dispatch. -/
theorem C1_amended_destroyed_at_next_dispatch_witness :
    (wsi_from_fd
      (lws_dbus_remove_watch (lws_dbus_add_watch st0 wR false false).1 wR).fds
      5).isSome = true ∧
    wsi_from_fd
      (rops_handle_POLLIN_dbus
        (lws_dbus_remove_watch (lws_dbus_add_watch st0 wR false false).1 wR)
        5 1 false).fds 5 = none :=
  C1_amended_destroyed_at_next_dispatch (lws_dbus_add_watch st0 wR false false).1
    wR ⟨5, 7, 1⟩ 1 false (by decide) (by decide) (by decide) (by decide)
    (by decide) (by decide)

/-! Claim C2. -/

/-- C2 counterexample: for an enabled timer requested with a 200 ms
interval at add-time 1000, the stored fire deadline is 1000, not
1000 + 1 as the claim (add-time plus the clamped interval of one whole
second) requires. -/
theorem C2_counterexample_stored_fire :
    (lws_dbus_add_timeout st0 t200 1000 false).1.timers = [⟨0, 1000⟩] ∧
    ((1000 : Int) ≠ 1000 + 1) := by
  constructor
  · rfl
  · decide

/-- C2 amended: for every enabled timer, the stored fire deadline equals
the add-time now with no added interval (after the clamp the sub-second
rounding term, the truth value of clamped ms below 1000, is identically
zero); a 200 ms timer nonetheless fires no earlier than 1 real second
after registration, because the periodic sweep fires only entries whose
deadline is strictly before the tick time, so the new entry survives
every tick at a time at or before the registration time. -/
theorem C2_amended_fire_deadline (st : St) (t : DBusTimeout) (ti now : Int)
    (ht : t.enabled = true) (hnow : now ≤ ti) :
    (lws_dbus_add_timeout st t ti false).1.timers = ⟨t.tid, ti⟩ :: st.timers ∧
    (periodicSweep now ((lws_dbus_add_timeout st t ti false).1.timers)).1 =
      ⟨t.tid, ti⟩ :: (periodicSweep now st.timers).1 := by
  have hfire : (lws_dbus_add_timeout st t ti false).1.timers =
      ⟨t.tid, ti⟩ :: st.timers := by
    unfold lws_dbus_add_timeout
    rw [ht]
    by_cases h : t.interval < 1000 <;> simp [h]
  refine ⟨hfire, ?_⟩
  rw [hfire]
  have hkeep : ¬ now > (TimerEntry.mk t.tid ti).fire := not_lt.mpr hnow
  simp [periodicSweep, hkeep]

/-- C2 witness: the amended theorem at the 200 ms timer t200 registered
at time 1000, with a tick at time 1000. -/
theorem C2_amended_fire_deadline_witness :
    (lws_dbus_add_timeout st0 t200 1000 false).1.timers = [⟨0, 1000⟩] ∧
    (periodicSweep 1000 ((lws_dbus_add_timeout st0 t200 1000 false).1.timers)).1 =
      [⟨0, 1000⟩] :=
  C2_amended_fire_deadline st0 t200 1000 1000 (by decide) (by decide)

/-! Claim C4. -/

/-- The periodic sweep keeps exactly the entries whose deadline is at or
after now and fires exactly those strictly before now, in list order. -/
theorem periodicSweep_spec (now : Int) (l : List TimerEntry) :
    (periodicSweep now l).1 = l.filter (fun r => !decide (now > r.fire)) ∧
    (periodicSweep now l).2 =
      (l.filter (fun r => decide (now > r.fire))).map TimerEntry.data := by
  induction l with
  | nil => exact ⟨rfl, rfl⟩
  | cons r rest ih =>
    by_cases h : now > r.fire <;>
      simp [periodicSweep, h, ih.1, ih.2, List.filter_cons]

/-- C4 counterexample: an entry whose fire deadline is 5 is not fired by
a tick at now = 5, although its deadline is at (hence at-or-before) now;
the claim requires it to be fired and removed. -/
theorem C4_counterexample_deadline_at_now :
    (rops_periodic_checks_dbus stTimer5 5).2 = [] ∧
    (rops_periodic_checks_dbus stTimer5 5).1.timers = [⟨0, 5⟩] ∧
    ((5 : Int) ≤ 5) := by
  exact ⟨rfl, rfl, by decide⟩

/-- C4 amended: for every timer list and tick time now, periodic_tick
fires (hands to the external timer-fire entry point) exactly the entries
whose fire deadline is strictly before now, unlinking and freeing each
fired entry; entries whose deadline is at or after now are left
unchanged, and the rest of the state is untouched. -/
theorem C4_amended_fires_strictly_before (st : St) (now : Int) :
    (rops_periodic_checks_dbus st now).1.timers =
      st.timers.filter (fun r => !decide (now > r.fire)) ∧
    (rops_periodic_checks_dbus st now).2 =
      (st.timers.filter (fun r => decide (now > r.fire))).map TimerEntry.data ∧
    (rops_periodic_checks_dbus st now).1.ctx = st.ctx ∧
    (rops_periodic_checks_dbus st now).1.fds = st.fds := by
  have h := periodicSweep_spec now st.timers
  exact ⟨h.1, h.2, rfl, rfl⟩

/-! Claim C6. -/

/-- C6 counterexample: on descriptor-table insertion failure, add_watch
reports failure but the first watch slot of the context has been newly
occupied with the watch (it was empty before the call), contradicting
the no-partial-state part of the claim. -/
theorem C6_counterexample_slot_left_occupied :
    (lws_dbus_add_watch st0 wR false true).2 = false ∧
    (lws_dbus_add_watch st0 wR false true).1.ctx.w0 = some wR ∧
    st0.ctx.w0 = none := by
  exact ⟨rfl, rfl, rfl⟩

/-- C6 amended: every failing add_watch reports failure to the caller;
for an fd outside the valid range and for allocation failure the state is
unchanged; on descriptor-table insertion failure the partially created
shadow handle is unwound (not inserted, not counted) and failure
propagates, but the first watch slot keeps the watch recorded during
creation. -/
theorem C6_amended_failure_paths :
    (∀ (st : St) (w : DBusWatch) (af insf : Bool), st.fdLimit ≤ w.fd →
       lws_dbus_add_watch st w af insf = (st, false)) ∧
    (∀ (st : St) (w : DBusWatch) (insf : Bool), w.fd < st.fdLimit →
       wsi_from_fd st.fds w.fd = none →
       lws_dbus_add_watch st w true insf = (st, false)) ∧
    (∀ (st : St) (w : DBusWatch), w.fd < st.fdLimit →
       wsi_from_fd st.fds w.fd = none →
       lws_dbus_add_watch st w false true =
         ({ st with ctx := { st.ctx with w0 := some w } }, false)) := by
  refine ⟨?_, ?_, ?_⟩
  · intro st w af insf h
    unfold lws_dbus_add_watch __lws_shadow_wsi
    rw [if_pos h]
  · intro st w insf h hf
    unfold lws_dbus_add_watch __lws_shadow_wsi
    rw [if_neg (by omega), hf]
    simp
  · intro st w h hf
    unfold lws_dbus_add_watch __lws_shadow_wsi
    rw [if_neg (by omega), hf]
    simp

/-- C6 witness: the three failure paths at concrete inputs: a watch on
fd 200 against the limit 64; allocation failure for wR on the fresh
state; insertion failure for wR on the fresh state. -/
theorem C6_amended_failure_paths_witness :
    lws_dbus_add_watch st0 ⟨1, 1, 200⟩ false false = (st0, false) ∧
    lws_dbus_add_watch st0 wR true false = (st0, false) ∧
    lws_dbus_add_watch st0 wR false true =
      ({ st0 with ctx := { st0.ctx with w0 := some wR } }, false) :=
  ⟨C6_amended_failure_paths.1 st0 ⟨1, 1, 200⟩ false false (by decide),
   C6_amended_failure_paths.2.1 st0 wR false (by decide) (by decide),
   C6_amended_failure_paths.2.2 st0 wR (by decide) (by decide)⟩

/-! Claim C7. -/

/-- C7: when the descriptor already has a shadow handle owned by a
different bridge context, the ownership assert fails: modelling the
assert as a contract-violation abort, __lws_shadow_wsi reports the
violation without returning the foreign handle and without touching the
state, and lws_dbus_add_watch reports failure with the state unchanged;
the handle is never reassigned or returned as belonging to the
requesting context. -/
theorem C7_cross_context_rejected (st : St) (w : DBusWatch) (e : FdEntry)
    (af insf cOk : Bool) (hfd : w.fd < st.fdLimit)
    (hf : wsi_from_fd st.fds w.fd = some e)
    (ho : e.owner ≠ st.ctx.cid) :
    __lws_shadow_wsi st w w.fd cOk af insf = ⟨some .crossCtx, none, st⟩ ∧
    lws_dbus_add_watch st w af insf = (st, false) := by
  have hs : ∀ c : Bool, __lws_shadow_wsi st w w.fd c af insf =
      ⟨some .crossCtx, none, st⟩ := by
    intro c
    unfold __lws_shadow_wsi
    rw [if_neg (by omega), hf]
    simp [ho]
  refine ⟨hs cOk, ?_⟩
  unfold lws_dbus_add_watch
  rw [hs true]

/-- C7 witness: the theorem at a state whose fd-5 handle is owned by
context 99 while the requesting context is 7. -/
theorem C7_cross_context_rejected_witness :
    __lws_shadow_wsi stForeign wR 5 true false false =
      ⟨some .crossCtx, none, stForeign⟩ ∧
    lws_dbus_add_watch stForeign wR false false = (stForeign, false) :=
  C7_cross_context_rejected stForeign wR ⟨5, 99, 1⟩ false false true
    (by decide) (by decide) (by decide)

/-! Claim C8. -/

/-- C8: removing a watch whose descriptor has no shadow handle is a
silent no-op: the state is returned unchanged (no handle is created, no
context state is modified) and the call completes normally. -/
theorem C8_remove_missing_noop (st : St) (w : DBusWatch)
    (hfd : w.fd < st.fdLimit)
    (hf : wsi_from_fd st.fds w.fd = none) :
    lws_dbus_remove_watch st w = st := by
  unfold lws_dbus_remove_watch
  rw [shadow_missing_no_create st w w.fd false false hfd hf]

/-- C8 witness: removing wR from the fresh state (empty descriptor
table) changes nothing. -/
theorem C8_remove_missing_noop_witness : lws_dbus_remove_watch st0 wR = st0 :=
  C8_remove_missing_noop st0 wR (by decide) (by decide)

/-! Claim C9. -/

/-- C9: a timeout reported disabled at add-time is ignored with success:
no entry is enqueued, the pending count is untouched, the whole state is
unchanged. -/
theorem C9_disabled_timeout_ignored (st : St) (t : DBusTimeout) (ti : Int)
    (af : Bool) (h : t.enabled = false) :
    lws_dbus_add_timeout st t ti af = (st, true) := by
  unfold lws_dbus_add_timeout
  rw [h]
  rfl

/-- C9 witness: adding the disabled timeout tOff to the fresh state. -/
theorem C9_disabled_timeout_ignored_witness :
    lws_dbus_add_timeout st0 tOff 1000 false = (st0, true) :=
  C9_disabled_timeout_ignored st0 tOff 1000 false (by decide)

/-! Claim C5. -/

/-- C5 trace, step 1: add the readable watch wR on fd 5 (shadow handle
created). -/
def c5s1 : St := (lws_dbus_add_watch st0 wR false false).1

/-- C5 trace, step 2: readiness with hangup is delivered; hup becomes
sticky, the slot is still occupied so nothing is destroyed. -/
def c5s2 : St := rops_handle_POLLIN_dbus c5s1 5 24 false

/-- C5 trace, step 3: the last watch is removed; the handle survives. -/
def c5s3 : St := lws_dbus_remove_watch c5s2 wR

/-- C5 trace, step 4: plain readiness is delivered; the handle is
destroyed and the closing notification fires (first time). -/
def c5s4 : St := rops_handle_POLLIN_dbus c5s3 5 1 false

/-- C5 trace, step 5: dbus asks to watch again; a new shadow handle is
created for the same context. -/
def c5s5 : St := (lws_dbus_add_watch c5s4 wR false false).1

/-- C5 trace, step 6: that watch is removed again. -/
def c5s6 : St := lws_dbus_remove_watch c5s5 wR

/-- C5 trace, step 7: readiness is delivered again; the closing
notification fires a second time. -/
def c5s7 : St := rops_handle_POLLIN_dbus c5s6 5 1 false

/-- C5 counterexample: over one lifetime of the bridge context ctx0 the
closing notification is invoked twice: once at step 4 and again at step
7, after dbus re-adds and removes a watch following the first
notification.  This contradicts the at-most-once part of the claim. -/
theorem C5_counterexample_fires_twice :
    c5s4.closingFired = 1 ∧ c5s7.closingFired = 2 := by
  constructor <;> rfl

/-- C5 amended: whenever the destruction check changes the closing
count, the point of invocation satisfies all the claimed conditions:
zero occupied watch slots, connection present, hangup observed, zero
pending timers, and no buffered dispatch work reported; and the count
rises by exactly one per such invocation.  The notification is however
not limited to once per context lifetime: it can recur when watches are
re-added and removed after a notification. -/
theorem C5_amended_closing_conditions (st : St) (wsiFd : Option Nat) (dr : Bool)
    (h : (check_destroy_shadow_wsi st wsiFd dr).1.closingFired ≠ st.closingFired) :
    st.ctx.w0 = none ∧ st.ctx.w1 = none ∧ st.ctx.hasConn = true ∧
    st.ctx.hup = true ∧ st.ctx.timeouts = 0 ∧ dr = false ∧
    st.ctx.hasCbClosing = true ∧
    (check_destroy_shadow_wsi st wsiFd dr).1.closingFired =
      st.closingFired + 1 := by
  rcases wsiFd with _ | fd
  · exact absurd rfl h
  · simp only [check_destroy_shadow_wsi] at h ⊢
    by_cases hw : st.ctx.w0 ≠ none ∨ st.ctx.w1 ≠ none
    · rw [if_pos hw] at h
      exact absurd rfl h
    · rw [if_neg hw] at h ⊢
      have hw0 : st.ctx.w0 = none := not_not.mp (not_or.mp hw).1
      have hw1 : st.ctx.w1 = none := not_not.mp (not_or.mp hw).2
      by_cases hc : ¬(__lws_shadow_wsi_destroy st fd).ctx.hasConn = true ∨
          ¬(__lws_shadow_wsi_destroy st fd).ctx.hup = true ∨
          (__lws_shadow_wsi_destroy st fd).ctx.timeouts ≠ 0
      · rw [if_pos hc] at h
        exact absurd rfl h
      · rw [if_neg hc] at h ⊢
        push_neg at hc
        by_cases hdr : dr = true
        · rw [if_pos hdr] at h
          exact absurd rfl h
        · rw [if_neg hdr] at h ⊢
          by_cases hcb : (__lws_shadow_wsi_destroy st fd).ctx.hasCbClosing = true
          · rw [if_pos hcb] at h ⊢
            exact ⟨hw0, hw1, hc.1, hc.2.1, hc.2.2, Bool.not_eq_true dr ▸ hdr,
                   hcb, rfl⟩
          · rw [if_neg hcb] at h
            exact absurd rfl h

/-- C5 witness: the amended theorem at the step-3 state of the C5 trace
(slots empty, hangup seen, no timers, no buffered work): the closing
count rises from 0 to 1 and every condition holds there. -/
theorem C5_amended_closing_conditions_witness :
    c5s3.ctx.w0 = none ∧ c5s3.ctx.w1 = none ∧ c5s3.ctx.hasConn = true ∧
    c5s3.ctx.hup = true ∧ c5s3.ctx.timeouts = 0 ∧ false = false ∧
    c5s3.ctx.hasCbClosing = true ∧
    (check_destroy_shadow_wsi c5s3 (some 5) false).1.closingFired =
      c5s3.closingFired + 1 :=
  C5_amended_closing_conditions c5s3 (some 5) false (by decide)

/-! Claim C10. -/

/-- C10: for a bridge context wrapping a server (conn absent), readiness
dispatch never reaches the destruction check: the descriptor table, the
closing count, the timer list and the watch slots are all unchanged (only
the sticky hup flag may be recorded); and the destruction check itself,
on any state whose conn is absent, returns without invoking the closing
notification. -/
theorem C10_server_ctx_no_teardown (st : St) (wsiFd revents : Nat) (dr : Bool)
    (hconn : st.ctx.hasConn = false) :
    (rops_handle_POLLIN_dbus st wsiFd revents dr).fds = st.fds ∧
    (rops_handle_POLLIN_dbus st wsiFd revents dr).closingFired = st.closingFired ∧
    (rops_handle_POLLIN_dbus st wsiFd revents dr).timers = st.timers ∧
    (rops_handle_POLLIN_dbus st wsiFd revents dr).ctx.w0 = st.ctx.w0 ∧
    (rops_handle_POLLIN_dbus st wsiFd revents dr).ctx.w1 = st.ctx.w1 ∧
    (∀ (st2 : St) (fdo : Option Nat) (dr2 : Bool), st2.ctx.hasConn = false →
       (check_destroy_shadow_wsi st2 fdo dr2).1.closingFired = st2.closingFired) := by
  have hcd : ∀ (st2 : St) (fdo : Option Nat) (dr2 : Bool), st2.ctx.hasConn = false →
      (check_destroy_shadow_wsi st2 fdo dr2).1.closingFired = st2.closingFired := by
    intro st2 fdo dr2 h2
    rcases fdo with _ | fd
    · rfl
    · simp only [check_destroy_shadow_wsi]
      by_cases hw : st2.ctx.w0 ≠ none ∨ st2.ctx.w1 ≠ none
      · simp only [if_pos hw]
      · have hcond : ¬(__lws_shadow_wsi_destroy st2 fd).ctx.hasConn = true ∨
            ¬(__lws_shadow_wsi_destroy st2 fd).ctx.hup = true ∨
            (__lws_shadow_wsi_destroy st2 fd).ctx.timeouts ≠ 0 := by
          left
          simp [__lws_shadow_wsi_destroy, h2]
        simp only [if_neg hw, if_pos hcond]
        rfl
  have hd : rops_handle_POLLIN_dbus st wsiFd revents dr =
      (if revents &&& LWS_POLLHUP ≠ 0 then
        { st with ctx := { st.ctx with hup := true } } else st) := by
    unfold rops_handle_POLLIN_dbus
    by_cases hrev : revents &&& LWS_POLLHUP ≠ 0 <;> simp [hrev, hconn]
  refine ⟨?_, ?_, ?_, ?_, ?_, hcd⟩ <;>
    · rw [hd]
      by_cases hrev : revents &&& LWS_POLLHUP ≠ 0 <;> simp [hrev]

/-- C10 witness: a readiness event with hangup for the server context
state stSrv (handle present, zero slots): nothing is destroyed and no
notification fires. -/
theorem C10_server_ctx_no_teardown_witness :
    (rops_handle_POLLIN_dbus stSrv 5 24 false).fds = stSrv.fds ∧
    (rops_handle_POLLIN_dbus stSrv 5 24 false).closingFired = stSrv.closingFired ∧
    (rops_handle_POLLIN_dbus stSrv 5 24 false).timers = stSrv.timers ∧
    (rops_handle_POLLIN_dbus stSrv 5 24 false).ctx.w0 = stSrv.ctx.w0 ∧
    (rops_handle_POLLIN_dbus stSrv 5 24 false).ctx.w1 = stSrv.ctx.w1 ∧
    (∀ (st2 : St) (fdo : Option Nat) (dr2 : Bool), st2.ctx.hasConn = false →
       (check_destroy_shadow_wsi st2 fdo dr2).1.closingFired = st2.closingFired) :=
  C10_server_ctx_no_teardown stSrv 5 24 false (by decide)

/-! Claim C3. -/

/-- Arithmetic facts about the dbus-to-poll mask translation, over flag
words carrying only the readable and writable bits: absorption of a
sub-mask into a larger OR, exactness of the clear-complement update on
the remove path, closure of OR below 4, idempotence, and self-clearing. -/
theorem maskFacts : ∀ a < 4, ∀ b < 4,
    (lwsFlagsOf a ||| lwsFlagsOf (b ||| a) = lwsFlagsOf (b ||| a)) ∧
    (lwsFlagsOf a ||| lwsFlagsOf (a ||| b) = lwsFlagsOf (a ||| b)) ∧
    (andNot (lwsFlagsOf (b ||| a)) (clearFlagsOf a) = lwsFlagsOf a) ∧
    (andNot (lwsFlagsOf (a ||| b)) (clearFlagsOf a) = lwsFlagsOf a) ∧
    (a ||| b < 4) ∧
    (lwsFlagsOf a ||| lwsFlagsOf a = lwsFlagsOf a) ∧
    (andNot (lwsFlagsOf a) (clearFlagsOf a) = lwsFlagsOf a) := by
  decide

/-- Flags of an empty slot. -/
theorem slotFlags_none : slotFlags none = 0 := rfl

/-- Flags of an occupied slot. -/
theorem slotFlags_some (w : DBusWatch) : slotFlags (some w) = w.flags := rfl

/-- A slot whose occupant satisfies the invariant contributes flags
below 4. -/
theorem slotFlags_lt_four {fd : Nat} {o : Option DBusWatch}
    (h : ∀ w, o = some w → w.fd = fd ∧ w.flags < 4) : slotFlags o < 4 := by
  cases o with
  | none => decide
  | some w => exact (h w rfl).2

/-- The merged flags of a context whose slots satisfy the invariant are
below 4. -/
theorem ctxFlagsOr_lt_four {fd : Nat} {c : DbusCtx}
    (h0 : ∀ w, c.w0 = some w → w.fd = fd ∧ w.flags < 4)
    (h1 : ∀ w, c.w1 = some w → w.fd = fd ∧ w.flags < 4) :
    ctxFlagsOr c < 4 :=
  (maskFacts _ (slotFlags_lt_four h0) _ (slotFlags_lt_four h1)).2.2.2.2.1

/-- One add_watch step preserves the mask-merge invariant, for a watch
on the invariant descriptor and any environment oracle outcome. -/
theorem WInv_add (fd : Nat) (st : St) (w : DBusWatch) (af insf : Bool)
    (hwfd : w.fd = fd) (hwfl : w.flags < 4) (h : WInv fd st) :
    WInv fd (lws_dbus_add_watch st w af insf).1 := by
  obtain ⟨h0, h1, hdisj⟩ := h
  by_cases hlim : st.fdLimit ≤ w.fd
  · rw [add_watch_badFd st w af insf hlim]
    exact ⟨h0, h1, hdisj⟩
  · have hfd : w.fd < st.fdLimit := by omega
    rcases hdisj with ⟨hfds, hw1n⟩ | hfds
    · have hf : wsi_from_fd st.fds w.fd = none := by rw [hfds]; rfl
      cases af with
      | true =>
        rw [add_watch_allocFail st w insf hfd hf]
        exact ⟨h0, h1, Or.inl ⟨hfds, hw1n⟩⟩
      | false =>
        cases insf with
        | true =>
          rw [add_watch_insertFail st w hfd hf]
          refine ⟨?_, ?_, Or.inl ⟨hfds, hw1n⟩⟩
          · intro wq hwq
            have h2 : some w = some wq := hwq
            injection h2 with h3
            subst h3
            exact ⟨hwfd, hwfl⟩
          · intro wq hwq
            exact h1 wq hwq
        | false =>
          rw [add_watch_create st w hfd hf]
          refine ⟨?_, ?_, Or.inr ?_⟩
          · intro wq hwq
            have h2 : some w = some wq := hwq
            injection h2 with h3
            subst h3
            exact ⟨hwfd, hwfl⟩
          · intro wq hwq
            exact h1 wq hwq
          · rw [hfds]
            simp [__lws_change_pollfd, andNot, hwfd, Nat.zero_or]
    · have hf : wsi_from_fd st.fds w.fd =
          some ⟨fd, st.ctx.cid, lwsFlagsOf (ctxFlagsOr st.ctx)⟩ := by
        rw [hfds]
        exact wsi_from_fd_singleton _ _ (by simp [hwfd])
      rw [add_watch_found st w af insf _ hfd hf rfl]
      by_cases hmem : st.ctx.w0 = some w ∨ st.ctx.w1 = some w
      · have hrs : recordSlot st.ctx w = st.ctx := by
          unfold recordSlot
          rw [if_pos hmem]
        rw [hrs]
        refine ⟨h0, h1, Or.inr ?_⟩
        rw [hfds]
        have hor : ctxFlagsOr st.ctx < 4 := ctxFlagsOr_lt_four h0 h1
        have hself := (maskFacts _ hor 0 (by decide)).2.2.2.2.2.1
        simp [__lws_change_pollfd, andNot, hself]
      · by_cases hw0n : st.ctx.w0 = none
        · have hrs : recordSlot st.ctx w = { st.ctx with w0 := some w } := by
            unfold recordSlot
            rw [if_neg hmem, if_pos hw0n]
          rw [hrs]
          refine ⟨?_, ?_, Or.inr ?_⟩
          · intro wq hwq
            have h2 : some w = some wq := hwq
            injection h2 with h3
            subst h3
            exact ⟨hwfd, hwfl⟩
          · intro wq hwq
            exact h1 wq hwq
          · rw [hfds]
            have hf1 : slotFlags st.ctx.w1 < 4 := slotFlags_lt_four h1
            have habs := (maskFacts _ hf1 _ hwfl).1
            simp [__lws_change_pollfd, andNot, ctxFlagsOr, slotFlags_none, slotFlags_some, hw0n,
                  Nat.zero_or, habs]
        · by_cases hw1n : st.ctx.w1 = none
          · have hrs : recordSlot st.ctx w = { st.ctx with w1 := some w } := by
              unfold recordSlot
              rw [if_neg hmem, if_neg hw0n, if_pos hw1n]
            rw [hrs]
            refine ⟨?_, ?_, Or.inr ?_⟩
            · intro wq hwq
              exact h0 wq hwq
            · intro wq hwq
              have h2 : some w = some wq := hwq
              injection h2 with h3
              subst h3
              exact ⟨hwfd, hwfl⟩
            · rw [hfds]
              have hf0 : slotFlags st.ctx.w0 < 4 := slotFlags_lt_four h0
              have habs := (maskFacts _ hf0 _ hwfl).2.1
              simp [__lws_change_pollfd, andNot, ctxFlagsOr, slotFlags_none, slotFlags_some, hw1n,
                    Nat.or_zero, habs]
          · have hrs : recordSlot st.ctx w = st.ctx := by
              unfold recordSlot
              rw [if_neg hmem, if_neg hw0n, if_neg hw1n]
            rw [hrs]
            refine ⟨h0, h1, Or.inr ?_⟩
            rw [hfds]
            have hor : ctxFlagsOr st.ctx < 4 := ctxFlagsOr_lt_four h0 h1
            have hself := (maskFacts _ hor 0 (by decide)).2.2.2.2.2.1
            simp [__lws_change_pollfd, andNot, hself]

/-- One remove_watch step preserves the mask-merge invariant, for a watch
on the invariant descriptor. -/
theorem WInv_remove (fd : Nat) (st : St) (w : DBusWatch)
    (hwfd : w.fd = fd) (h : WInv fd st) :
    WInv fd (lws_dbus_remove_watch st w) := by
  obtain ⟨h0, h1, hdisj⟩ := h
  by_cases hlim : st.fdLimit ≤ w.fd
  · rw [remove_watch_badFd st w hlim]
    exact ⟨h0, h1, hdisj⟩
  · have hfd : w.fd < st.fdLimit := by omega
    rcases hdisj with ⟨hfds, hw1n⟩ | hfds
    · have hf : wsi_from_fd st.fds w.fd = none := by rw [hfds]; rfl
      rw [remove_watch_missing st w hfd hf]
      exact ⟨h0, h1, Or.inl ⟨hfds, hw1n⟩⟩
    · have hf : wsi_from_fd st.fds w.fd =
          some ⟨fd, st.ctx.cid, lwsFlagsOf (ctxFlagsOr st.ctx)⟩ := by
        rw [hfds]
        exact wsi_from_fd_singleton _ _ (by simp [hwfd])
      rw [remove_watch_found st w _ hfd hf rfl]
      by_cases hcw0 : st.ctx.w0 = some w
      · have hcs : clearSlot st.ctx w = { st.ctx with w0 := none } := by
          unfold clearSlot
          rw [if_pos hcw0]
        rw [hcs]
        refine ⟨?_, ?_, Or.inr ?_⟩
        · intro wq hwq
          exact Option.noConfusion hwq
        · intro wq hwq
          exact h1 wq hwq
        · rw [hfds]
          have hwfl : w.flags < 4 := (h0 w hcw0).2
          have hf1 : slotFlags st.ctx.w1 < 4 := slotFlags_lt_four h1
          have hclr := (maskFacts _ hf1 _ hwfl).2.2.1
          simp [__lws_change_pollfd, ctxFlagsOr, slotFlags_none, slotFlags_some, hcw0,
                Nat.zero_or, Nat.or_zero, hclr]
      · by_cases hcw1 : st.ctx.w1 = some w
        · have hcs : clearSlot st.ctx w = { st.ctx with w1 := none } := by
            unfold clearSlot
            rw [if_neg hcw0, if_pos hcw1]
          rw [hcs]
          refine ⟨?_, ?_, Or.inr ?_⟩
          · intro wq hwq
            exact h0 wq hwq
          · intro wq hwq
            exact Option.noConfusion hwq
          · rw [hfds]
            have hwfl : w.flags < 4 := (h1 w hcw1).2
            have hf0 : slotFlags st.ctx.w0 < 4 := slotFlags_lt_four h0
            have hclr := (maskFacts _ hf0 _ hwfl).2.2.2.1
            simp [__lws_change_pollfd, ctxFlagsOr, slotFlags_none, slotFlags_some, hcw1,
                  Nat.zero_or, Nat.or_zero, hclr]
        · have hcs : clearSlot st.ctx w = st.ctx := by
            unfold clearSlot
            rw [if_neg hcw0, if_neg hcw1]
          rw [hcs]
          refine ⟨h0, h1, Or.inr ?_⟩
          rw [hfds]
          have hor : ctxFlagsOr st.ctx < 4 := ctxFlagsOr_lt_four h0 h1
          have hclr := (maskFacts _ hor 0 (by decide)).2.2.2.2.2.2
          simp [__lws_change_pollfd, Nat.or_zero, hclr]

/-- Running any invariant-respecting operation sequence preserves the
mask-merge invariant. -/
theorem WInv_run (fd : Nat) (ops : List WatchOp) :
    ∀ st : St, WInv fd st →
    (∀ op ∈ ops, (opWatch op).fd = fd ∧ (opWatch op).flags < 4) →
    WInv fd (runWatchOps st ops) := by
  induction ops with
  | nil =>
    intro st h _
    exact h
  | cons op rest ih =>
    intro st h hops
    have hop := hops op (List.mem_cons_self op rest)
    have hrest : ∀ o ∈ rest, (opWatch o).fd = fd ∧ (opWatch o).flags < 4 :=
      fun o ho => hops o (List.mem_cons_of_mem op ho)
    show WInv fd (runWatchOps (applyWatchOp st op) rest)
    apply ih
    · cases op with
      | addW w af insf => exact WInv_add fd st w af insf hop.1 hop.2 h
      | removeW w => exact WInv_remove fd st w hop.1 h
    · exact hrest

/-- C3: for every sequence of add_watch and remove_watch operations on
watch identities sharing one descriptor of a bridge context (in
particular for up to two identities, with readable and writable interest
bits), run from a state with free slots and an empty descriptor table:
whenever the shadow handle exists, its installed interest mask equals the
per-flag translation (readable to LWS_POLLIN, writable to LWS_POLLOUT) of
the bitwise-OR of the interest flags of the currently occupied
watch-identity slots. -/
theorem C3_mask_is_or_of_slots (fd : Nat) (s : St) (ops : List WatchOp)
    (h0 : s.ctx.w0 = none) (h1 : s.ctx.w1 = none) (hfds : s.fds = [])
    (hops : ∀ op ∈ ops, (opWatch op).fd = fd ∧ (opWatch op).flags < 4)
    (e : FdEntry)
    (he : wsi_from_fd (runWatchOps s ops).fds fd = some e) :
    e.events = lwsFlagsOf (ctxFlagsOr (runWatchOps s ops).ctx) := by
  have hstart : WInv fd s := by
    refine ⟨?_, ?_, Or.inl ⟨hfds, h1⟩⟩
    · intro w hw
      rw [h0] at hw
      exact Option.noConfusion hw
    · intro w hw
      rw [h1] at hw
      exact Option.noConfusion hw
  obtain ⟨-, -, hdisj⟩ := WInv_run fd ops s hstart hops
  rcases hdisj with ⟨hnil, -⟩ | hone
  · rw [hnil] at he
    exact Option.noConfusion he
  · rw [hone, wsi_from_fd_singleton _ _ rfl] at he
    injection he with h2
    rw [← h2]

/-- C3 witness: the spec scenario on fd 5: add the read watch wR, add
the write watch wW, remove wR; the surviving handle carries mask 4
(LWS_POLLOUT), the translated OR of the one occupied slot. -/
theorem C3_mask_is_or_of_slots_witness :
    (FdEntry.mk 5 7 4).events =
      lwsFlagsOf (ctxFlagsOr (runWatchOps st0
        [WatchOp.addW wR false false, WatchOp.addW wW false false,
         WatchOp.removeW wR]).ctx) :=
  C3_mask_is_or_of_slots 5 st0
    [WatchOp.addW wR false false, WatchOp.addW wW false false,
     WatchOp.removeW wR]
    (by decide) (by decide) (by decide) (by decide) ⟨5, 7, 4⟩ (by decide)

end LwsDbus
